import Mathlib

/-!
Shallow embedding of the `learning-pygame` repository (src/game.py,
src/events.py) and proofs of the specified properties.

Conventions of the embedding:
* `pygame.Vector2` values are modelled as pairs of integers (`Vec2`); every
  arithmetic operation used by the program (`+`, `-`) is exact on integers.
* Randomness (`random.randint`) is modelled by passing the draws as explicit
  seed arguments: `randint a b seed` returns a value in `[a, b]` determined by
  the seed, matching the contract of the library function.
* Side-effecting handlers become pure state transformers on `GameState`.
* Rendering to a surface is modelled as producing the list of blit commands
  (surface size and destination position) that the code issues; a Python
  runtime fault (IndexError on an empty tuple) becomes `Option.none`.
-/

/-- A 2D vector, modelling `pygame.Vector2` as used by the program
(all coordinates the program manipulates are integral). -/
abbrev Vec2 := Int × Int

/-- An RGB colour triple, modelling `tuple[int, int, int]`. -/
abbrev Color := Nat × Nat × Nat

/-- Interaction mode, from `class Mode(Flag): DRAG = auto(); NONE = auto()`. -/
inductive Mode where
  | DRAG
  | NONE
deriving DecidableEq, Repr

/-- pygame key code `pygame.K_ESCAPE`. -/
def K_ESCAPE : Nat := 27

/-- pygame button code `pygame.BUTTON_LEFT`. -/
def BUTTON_LEFT : Nat := 1

/-- pygame button code `pygame.BUTTON_MIDDLE`. -/
def BUTTON_MIDDLE : Nat := 2

/-- pygame button code `pygame.BUTTON_RIGHT`. -/
def BUTTON_RIGHT : Nat := 3

/-- The pygame input events the program dispatches on (`event.type`), with the
payload fields the handlers read. `other` stands for every event type the
`match` statements fall through on. -/
inductive Event where
  | keydown (key : Nat)
  | quit
  | mousebuttondown (button : Nat) (pos : Vec2)
  | mousebuttonup (button : Nat) (pos : Vec2)
  | mousemotion (pos : Vec2) (buttons : Nat × Nat × Nat)
  | other
deriving DecidableEq, Repr

/-- Source `random.randint(a, b)`: a value in `[a, b]`, here determined by an explicit
seed standing for the library's internal RNG state. -/
def randint (a b seed : Nat) : Nat := a + seed % (b - a + 1)

/-- Source `get_color()` from game.py: `(randint(0, 160), randint(0, 160), randint(0, 160))`,
with the three draws passed as explicit seeds. -/
def get_color (s1 s2 s3 : Nat) : Color :=
  (randint 0 160 s1, randint 0 160 s2, randint 0 160 s3)

/-- Source `Game.ZERO`, the class-level zero vector `pygame.Vector2((0, 0))`. -/
def Game.ZERO : Vec2 := (0, 0)

/-- The mutable fields of `Game` that the event handlers touch. -/
structure GameState where
  color : Color
  running : Bool
  mode : Mode
  camera_position : Vec2
  mouse_position : Vec2
deriving DecidableEq, Repr

/-- Source `Game.__init__`: colour from `get_color()` (passed in, see `get_color`),
`running = False`, `mode = Mode.NONE`, camera and mouse positions are copies
of `ZERO`. -/
def Game.init (c : Color) : GameState :=
  { color := c
    running := false
    mode := Mode.NONE
    camera_position := Game.ZERO
    mouse_position := Game.ZERO }

/-- Source `Game.handle_keydown`: `match (self.mode, event.key): case (_, K_ESCAPE): running = False`. -/
def Game.handle_keydown (s : GameState) (key : Nat) : GameState :=
  if key = K_ESCAPE then { s with running := false } else s

/-- Source `Game.handle_mousebuttondown`: in `Mode.NONE`, left press randomizes the
colour (the fresh `get_color()` result is the argument `c`), right press
rebinds the camera to a copy of `ZERO`, middle press enters `Mode.DRAG`. -/
def Game.handle_mousebuttondown (s : GameState) (button : Nat) (c : Color) : GameState :=
  match s.mode, button with
  | Mode.NONE, 1 => { s with color := c }
  | Mode.NONE, 3 => { s with camera_position := Game.ZERO }
  | Mode.NONE, 2 => { s with mode := Mode.DRAG }
  | _, _ => s

/-- Source `Game.handle_mousebuttonup`: `(Mode.DRAG, BUTTON_MIDDLE)` leaves drag mode. -/
def Game.handle_mousebuttonup (s : GameState) (button : Nat) : GameState :=
  match s.mode, button with
  | Mode.DRAG, 2 => { s with mode := Mode.NONE }
  | _, _ => s

/-- Source `Game.handle_mousemotion`: in `Mode.DRAG` (any `event.buttons`) the camera
moves by `position - self.mouse_position`, computed before
`self.mouse_position = position` runs; the mouse position is updated in every
mode. -/
def Game.handle_mousemotion (s : GameState) (pos : Vec2)
    (buttons : Nat × Nat × Nat) : GameState :=
  let s1 : GameState :=
    match s.mode, buttons with
    | Mode.DRAG, _ =>
        { s with camera_position := s.camera_position + (pos - s.mouse_position) }
    | _, _ => s
  { s1 with mouse_position := pos }

/-- Source `Game.handle_event`: dispatch on `event.type`. The colour argument is the
value `get_color()` would return if called during this event. -/
def Game.handle_event (s : GameState) (e : Event) (c : Color) : GameState :=
  match e with
  | Event.keydown key => Game.handle_keydown s key
  | Event.quit => { s with running := false }
  | Event.mousebuttondown button _ => Game.handle_mousebuttondown s button c
  | Event.mousebuttonup button _ => Game.handle_mousebuttonup s button
  | Event.mousemotion pos buttons => Game.handle_mousemotion s pos buttons
  | Event.other => s

/-- Source `Game.handle_events`: drain the event queue (a list of events, each paired
with the colour `get_color()` would produce at that point) in arrival order. -/
def Game.handle_events (s : GameState) (events : List (Event × Color)) : GameState :=
  events.foldl (fun t ec => Game.handle_event t ec.1 ec.2) s

/-- Source `Game.frame`: handle events, then fill/render/flip/tick, none of which
mutates the modelled state. -/
def Game.frame (s : GameState) (events : List (Event × Color)) : GameState :=
  Game.handle_events s events

/-- The `while self.running: self.frame()` loop of `Game.run`, supplied with the
per-frame event queues. -/
def Game.loop (s : GameState) : List (List (Event × Color)) → GameState
  | [] => s
  | f :: fs => if s.running then Game.loop (Game.frame s f) fs else s

/-- Source `Game.run`: set `running = True`, then loop. -/
def Game.run (s : GameState) (frames : List (List (Event × Color))) : GameState :=
  Game.loop { s with running := true } frames

/-- A rectangle as `pygame.Rect((x, y), (w, h))`. -/
structure Rect where
  x : Int
  y : Int
  w : Int
  h : Int
deriving DecidableEq, Repr

/-- Source `Rect.centerx`, pygame's `x + w // 2` (Python floor division). -/
def Rect.centerx (r : Rect) : Int := r.x + Int.fdiv r.w 2

/-- Source `Rect.centery`, pygame's `y + h // 2` (Python floor division). -/
def Rect.centery (r : Rect) : Int := r.y + Int.fdiv r.h 2

/-- The centre point of a rectangle as a vector. -/
def Rect.center (r : Rect) : Vec2 := (r.centerx, r.centery)

/-- One blit command issued to a surface: the size of the source surface and
the destination position. -/
structure Blit where
  size : Int × Int
  dest : Vec2
deriving DecidableEq, Repr

/-- Source `Chunk.BLOCK_SIZE = 8`. -/
def Chunk.BLOCK_SIZE : Int := 8

/-- Source `Chunk.CHUNK_SIZE = BLOCK_SIZE * 8`. -/
def Chunk.CHUNK_SIZE : Int := Chunk.BLOCK_SIZE * 8

/-- Source `Chunk.render`: blit the chunk's fixed-size surface onto the game surface
at `(camera.x + rect.centerx - CHUNK_SIZE / 2, camera.y + rect.centery -
CHUNK_SIZE / 2)`; the result is the full list of blits the call issues. -/
def Chunk.render (camera : Vec2) (rect : Rect) : List Blit :=
  [{ size := (Chunk.CHUNK_SIZE, Chunk.CHUNK_SIZE)
     dest := (camera.1 + rect.centerx - Chunk.CHUNK_SIZE / 2,
              camera.2 + rect.centery - Chunk.CHUNK_SIZE / 2) }]

/-- Source `TextBox.PADDING = (15, 5)`. -/
def TextBox.PADDING : Nat × Nat := (15, 5)

/-- Source `TextBox.__iter__` of the base class yields no lines (`yield from ()`). -/
def TextBox.baseLines : List String := []

/-- Source `AlertTextBox.__iter__` yields one fixed line. -/
def AlertTextBox.lines : List String := ["Try your mouse buttons!"]

/-- A blit of a text-box render: source surface size and destination, in
window pixels (all coordinates involved are non-negative naturals). -/
structure TextBlit where
  size : Nat × Nat
  dest : Nat × Nat
deriving DecidableEq, Repr

/-- The output of one `TextBox.render` call: the background panel blit followed
by one blit per text line, in the order the code passes them to
`surface.blits`. -/
structure TBRender where
  background : TextBlit
  lineBlits : List TextBlit
deriving DecidableEq, Repr

/-- Source `TextBox._get_background(x, y)`: a surface of size
`(PADDING[0] * 2 + x, PADDING[1] * 2 + y)` (returned here as its size). -/
def TextBox.getBackground (x y : Nat) : Nat × Nat :=
  (TextBox.PADDING.1 * 2 + x, TextBox.PADDING.2 * 2 + y)

/-- Source `TextBox.render`, with the font service abstracted as the pair of functions
`fw`/`fh` giving the width and height of the surface `font.render(text, ...)`
returns. `fg` is the tuple of rasterized line surfaces; `fg[0].get_height()`
raises `IndexError` when the line sequence is empty, modelled as `none`.
Otherwise the background panel is sized from the maximum line width and
`lh * len(fg)`, blitted at `position`, and each line `a` is blitted at
`(PADDING[0] + position[0], lh * a + PADDING[1] + position[1])`. -/
def TextBox.render (fw fh : String → Nat) (position : Nat × Nat)
    (tblines : List String) : Option TBRender :=
  let fg : List (Nat × Nat) := tblines.map (fun t => (fw t, fh t))
  match fg with
  | [] => none
  | f0 :: rest =>
    let lh : Nat := f0.2
    let bg : Nat × Nat :=
      TextBox.getBackground (((f0 :: rest).map Prod.fst).foldl Nat.max 0)
        (lh * (f0 :: rest).length)
    let x : Nat := TextBox.PADDING.1 + position.1
    let y : Nat := TextBox.PADDING.2 + position.2
    some { background := { size := bg, dest := position }
           lineBlits :=
             (f0 :: rest).enum.map (fun ab => { size := ab.2, dest := (x, lh * ab.1 + y) }) }

/-- Source `Handlers.handle_keydown` from events.py: `False` on escape, `True` on any
other key. -/
def Handlers.handle_keydown (key : Nat) : Bool :=
  if key = K_ESCAPE then false else true

/-- Source `Handlers.handle_event` from events.py: dispatch to `handle_keydown` on
key-down, `False` on quit, `True` for every other event type. -/
def Handlers.handle_event (e : Event) : Bool :=
  match e with
  | Event.keydown key => Handlers.handle_keydown key
  | Event.quit => false
  | _ => true

/-!
Aliasing model. `pygame.Vector2` objects are mutable, and `camera_position
+= ...` mutates the object in place, so whether `Game.ZERO` is ever mutated
depends on object identity, not on values. `AGame` makes identity explicit:
vectors live in a store (`heap`, indexed by allocation order) and the fields
`zeroRef`/`camRef`/`mouseRef` are references into it. `Vector2(...)` and
`.copy()` allocate fresh cells; plain assignment rebinds a reference; `+=`
writes through a reference.
-/

/-- Allocate a fresh `pygame.Vector2` cell holding `v`; returns the new store
and the reference to the fresh cell. -/
def halloc (h : List Vec2) (v : Vec2) : List Vec2 × Nat :=
  (h ++ [v], h.length)

/-- Read a vector cell (out-of-range reads default to the zero vector; the
invariants proved below keep every dereference in range). -/
def hread (h : List Vec2) (r : Nat) : Vec2 :=
  h.getD r (0, 0)

/-- Source `Game` with explicit vector identity: `heap` is the store of live
`pygame.Vector2` objects, the `Ref` fields are references into it. -/
structure AGame where
  heap : List Vec2
  zeroRef : Nat
  camRef : Nat
  mouseRef : Nat
  color : Color
  running : Bool
  mode : Mode
deriving DecidableEq, Repr

/-- Class definition plus `Game.__init__` in the aliasing model: the class
attribute `ZERO = Vector2((0, 0))` is allocated first; `camera_position` and
`mouse_position` are each bound to `self.ZERO.copy()`, a fresh cell holding
the value currently stored in `ZERO`. -/
def AGame.init (c : Color) : AGame :=
  let p0 := halloc [] (0, 0)
  let p1 := halloc p0.1 (hread p0.1 p0.2)
  let p2 := halloc p1.1 (hread p1.1 p0.2)
  { heap := p2.1
    zeroRef := p0.2
    camRef := p1.2
    mouseRef := p2.2
    color := c
    running := false
    mode := Mode.NONE }

/-- Source `Game.handle_keydown` in the aliasing model. -/
def AGame.handle_keydown (g : AGame) (key : Nat) : AGame :=
  if key = K_ESCAPE then { g with running := false } else g

/-- Source `Game.handle_mousebuttondown` in the aliasing model: the right-button case
executes `self.camera_position = self.ZERO.copy()`, allocating a fresh cell
with `ZERO`'s current value and rebinding `camRef` to it. -/
def AGame.handle_mousebuttondown (g : AGame) (button : Nat) (c : Color) : AGame :=
  match g.mode, button with
  | Mode.NONE, 1 => { g with color := c }
  | Mode.NONE, 3 =>
      let p := halloc g.heap (hread g.heap g.zeroRef)
      { g with heap := p.1, camRef := p.2 }
  | Mode.NONE, 2 => { g with mode := Mode.DRAG }
  | _, _ => g

/-- Source `Game.handle_mousebuttonup` in the aliasing model. -/
def AGame.handle_mousebuttonup (g : AGame) (button : Nat) : AGame :=
  match g.mode, button with
  | Mode.DRAG, 2 => { g with mode := Mode.NONE }
  | _, _ => g

/-- Source `Game.handle_mousemotion` in the aliasing model:
`position = Vector2(event.pos)` allocates a fresh cell; in `Mode.DRAG`,
`self.camera_position += position - self.mouse_position` mutates the cell
`camRef` points to in place; finally `self.mouse_position = position` rebinds
`mouseRef` to the fresh cell. -/
def AGame.handle_mousemotion (g : AGame) (pos : Vec2)
    (buttons : Nat × Nat × Nat) : AGame :=
  let p := halloc g.heap pos
  let g0 : AGame := { g with heap := p.1 }
  let g1 : AGame :=
    match g0.mode, buttons with
    | Mode.DRAG, _ =>
        { g0 with
            heap := g0.heap.set g0.camRef
              (hread g0.heap g0.camRef + (hread g0.heap p.2 - hread g0.heap g0.mouseRef)) }
    | _, _ => g0
  { g1 with mouseRef := p.2 }

/-- Source `Game.handle_event` in the aliasing model. -/
def AGame.handle_event (g : AGame) (e : Event) (c : Color) : AGame :=
  match e with
  | Event.keydown key => AGame.handle_keydown g key
  | Event.quit => { g with running := false }
  | Event.mousebuttondown button _ => AGame.handle_mousebuttondown g button c
  | Event.mousebuttonup button _ => AGame.handle_mousebuttonup g button
  | Event.mousemotion pos buttons => AGame.handle_mousemotion g pos buttons
  | Event.other => g

/-- Drain an event queue in the aliasing model. -/
def AGame.handle_events (g : AGame) (events : List (Event × Color)) : AGame :=
  events.foldl (fun t ec => AGame.handle_event t ec.1 ec.2) g

/-- C2: for every mouse-move event with position `pos`, the handler adds
`pos - LastMousePosition` to CameraOffset exactly when the mode is Dragging
(the delta is computed from the pre-handler LastMousePosition, i.e. before it
is overwritten), leaves CameraOffset unchanged otherwise, and in every mode
LastMousePosition equals `pos` afterwards. -/
theorem mousemotion_delta_then_update (s : GameState) (pos : Vec2)
    (buttons : Nat × Nat × Nat) :
    (Game.handle_mousemotion s pos buttons).mouse_position = pos ∧
    (Game.handle_mousemotion s pos buttons).camera_position =
      (if s.mode = Mode.DRAG then s.camera_position + (pos - s.mouse_position)
        else s.camera_position) ∧
    (Game.handle_mousemotion s pos buttons).mode = s.mode ∧
    (Game.handle_mousemotion s pos buttons).color = s.color ∧
    (Game.handle_mousemotion s pos buttons).running = s.running := by
  cases s with
  | mk c r m cam mp => cases m <;> simp [Game.handle_mousemotion]

/-- C4: for the base `TextBox`, whose `__iter__` yields no lines, `render`
reaches the error branch — indexing the first rasterized line of an empty
tuple — and faults instead of rendering nothing, for every font service and
anchor position. -/
theorem textbox_render_empty_faults (fw fh : String → Nat) (position : Nat × Nat) :
    TextBox.render fw fh position TextBox.baseLines = none := rfl

/-- C5: handling a secondary-button (right / recenter) press while the mode is
Idle resets CameraOffset to the origin, regardless of its prior value, and the
mode stays Idle. -/
theorem recenter_resets_camera (s : GameState) (p : Vec2) (c : Color)
    (h : s.mode = Mode.NONE) :
    (Game.handle_event s (Event.mousebuttondown BUTTON_RIGHT p) c).camera_position = (0, 0) ∧
    (Game.handle_event s (Event.mousebuttondown BUTTON_RIGHT p) c).mode = Mode.NONE := by
  simp [Game.handle_event, Game.handle_mousebuttondown, h, BUTTON_RIGHT, Game.ZERO]

/-- Witness for C5 at a concrete state with a non-trivial prior offset. -/
theorem recenter_resets_camera_witness :
    (Game.handle_event
        { color := (1, 2, 3), running := true, mode := Mode.NONE,
          camera_position := (42, -17), mouse_position := (9, 9) }
        (Event.mousebuttondown BUTTON_RIGHT (100, 100)) (5, 5, 5)).camera_position = (0, 0) ∧
    (Game.handle_event
        { color := (1, 2, 3), running := true, mode := Mode.NONE,
          camera_position := (42, -17), mouse_position := (9, 9) }
        (Event.mousebuttondown BUTTON_RIGHT (100, 100)) (5, 5, 5)).mode = Mode.NONE :=
  recenter_resets_camera _ _ _ rfl

/-- C8: for every camera offset and window rectangle, `Chunk.render` issues
exactly one blit, of the fixed-size sprite, at
`CameraOffset + windowCenter - spriteSize / 2` component-wise. -/
theorem chunk_render_single_blit (camera : Vec2) (rect : Rect) :
    Chunk.render camera rect =
      [{ size := (Chunk.CHUNK_SIZE, Chunk.CHUNK_SIZE),
         dest := camera + rect.center - (Chunk.CHUNK_SIZE / 2, Chunk.CHUNK_SIZE / 2) }] := by
  simp [Chunk.render, Rect.center, Prod.ext_iff]

/-- C6: handling a primary-button (left) press while Idle replaces the colour
with the fresh `get_color()` result, whose channels all lie in the valid range
[0, 255] (they are naturals, hence at least 0), and handling a primary-button
press while Dragging leaves the colour unchanged. -/
theorem primary_press_color (s t : GameState) (p q : Vec2) (r1 r2 r3 : Nat)
    (c2 : Color) (hs : s.mode = Mode.NONE) (ht : t.mode = Mode.DRAG) :
    (Game.handle_event s (Event.mousebuttondown BUTTON_LEFT p)
        (get_color r1 r2 r3)).color = get_color r1 r2 r3 ∧
    (get_color r1 r2 r3).1 ≤ 255 ∧
    (get_color r1 r2 r3).2.1 ≤ 255 ∧
    (get_color r1 r2 r3).2.2 ≤ 255 ∧
    (Game.handle_event t (Event.mousebuttondown BUTTON_LEFT q) c2).color = t.color := by
  refine ⟨?_, ?_, ?_, ?_, ?_⟩
  · simp [Game.handle_event, Game.handle_mousebuttondown, hs, BUTTON_LEFT]
  · simp only [get_color, randint]; omega
  · simp only [get_color, randint]; omega
  · simp only [get_color, randint]; omega
  · simp [Game.handle_event, Game.handle_mousebuttondown, ht, BUTTON_LEFT]

/-- Witness for C6: one concrete idle state whose colour becomes the drawn
colour, and one concrete dragging state whose colour is untouched. -/
theorem primary_press_color_witness :
    (Game.handle_event
        { color := (7, 7, 7), running := true, mode := Mode.NONE,
          camera_position := (0, 0), mouse_position := (0, 0) }
        (Event.mousebuttondown BUTTON_LEFT (50, 60))
        (get_color 3 200 161)).color = get_color 3 200 161 ∧
    (get_color 3 200 161).1 ≤ 255 ∧
    (get_color 3 200 161).2.1 ≤ 255 ∧
    (get_color 3 200 161).2.2 ≤ 255 ∧
    (Game.handle_event
        { color := (8, 9, 10), running := true, mode := Mode.DRAG,
          camera_position := (1, 1), mouse_position := (2, 2) }
        (Event.mousebuttondown BUTTON_LEFT (50, 60)) (0, 0, 0)).color = (8, 9, 10) :=
  primary_press_color _ _ (50, 60) (50, 60) 3 200 161 (0, 0, 0) rfl rfl

/-- A mouse-move event as queued during a drag: the middle button is held
(`event.buttons = (0, 1, 0)`) and no colour is drawn. -/
def motionEvent (p : Vec2) : Event × Color :=
  (Event.mousemotion p (0, 1, 0), (0, 0, 0))

/-- The event queue of a full drag gesture: middle-button press at `press`,
moves through the positions `ps`, middle-button release at `rel`. -/
def dragSeq (press rel : Vec2) (ps : List Vec2) : List (Event × Color) :=
  (Event.mousebuttondown BUTTON_MIDDLE press, (0, 0, 0)) ::
    (ps.map motionEvent ++ [(Event.mousebuttonup BUTTON_MIDDLE rel, (0, 0, 0))])

/-- The telescoping sum of per-move deltas: each position minus the previously
observed one, starting from `prev`. -/
def sumDeltas : Vec2 → List Vec2 → Vec2
  | _, [] => (0, 0)
  | prev, p :: ps => (p - prev) + sumDeltas p ps

theorem handle_events_cons (s : GameState) (ec : Event × Color)
    (l : List (Event × Color)) :
    Game.handle_events s (ec :: l) = Game.handle_events (Game.handle_event s ec.1 ec.2) l := rfl

theorem handle_events_append (s : GameState) (l1 l2 : List (Event × Color)) :
    Game.handle_events s (l1 ++ l2) = Game.handle_events (Game.handle_events s l1) l2 :=
  List.foldl_append _ _ _ _

theorem motions_in_drag (ps : List Vec2) :
    ∀ s : GameState, s.mode = Mode.DRAG →
      (Game.handle_events s (ps.map motionEvent)).camera_position
          = s.camera_position + sumDeltas s.mouse_position ps ∧
      (Game.handle_events s (ps.map motionEvent)).mode = Mode.DRAG := by
  induction ps with
  | nil =>
      intro s h
      simp [Game.handle_events, sumDeltas, Prod.ext_iff, h]
  | cons p ps ih =>
      intro s h
      have hstep : Game.handle_event s (motionEvent p).1 (motionEvent p).2 =
          { s with camera_position := s.camera_position + (p - s.mouse_position),
                   mouse_position := p } := by
        cases s with
        | mk c r m cam mp =>
            cases m <;> simp_all [motionEvent, Game.handle_event, Game.handle_mousemotion]
      rw [List.map_cons, handle_events_cons, hstep]
      have hrec := ih { s with camera_position := s.camera_position + (p - s.mouse_position),
                               mouse_position := p } (by simp [h])
      simp only at hrec
      refine ⟨?_, hrec.2⟩
      rw [hrec.1, sumDeltas, add_assoc]

theorem mousebuttonup_middle (s : GameState) :
    (Game.handle_mousebuttonup s BUTTON_MIDDLE).camera_position = s.camera_position ∧
    (s.mode = Mode.DRAG → (Game.handle_mousebuttonup s BUTTON_MIDDLE).mode = Mode.NONE) := by
  cases s with
  | mk c r m cam mp => cases m <;> simp [Game.handle_mousebuttonup, BUTTON_MIDDLE]

/-- C1: a full drag gesture (drag-button press, N moves, release) from any Idle
state moves CameraOffset by exactly the telescoping sum of per-move deltas
(each position minus the previously observed pointer position), with no
clamping and for any N, and returns the mode to Idle. -/
theorem drag_sequence_telescopes (s : GameState) (press rel : Vec2)
    (ps : List Vec2) (h : s.mode = Mode.NONE) :
    (Game.handle_events s (dragSeq press rel ps)).camera_position
        = s.camera_position + sumDeltas s.mouse_position ps ∧
    (Game.handle_events s (dragSeq press rel ps)).mode = Mode.NONE := by
  have hdown : Game.handle_event s (Event.mousebuttondown BUTTON_MIDDLE press) (0, 0, 0) =
      { s with mode := Mode.DRAG } := by
    cases s with
    | mk c r m cam mp =>
        cases m <;> simp_all [Game.handle_event, Game.handle_mousebuttondown, BUTTON_MIDDLE]
  rw [dragSeq, handle_events_cons]
  simp only at hdown
  rw [hdown, handle_events_append]
  have hmot := motions_in_drag ps { s with mode := Mode.DRAG } rfl
  have hup := mousebuttonup_middle (Game.handle_events { s with mode := Mode.DRAG }
    (ps.map motionEvent))
  have hfin : Game.handle_events (Game.handle_events { s with mode := Mode.DRAG }
      (ps.map motionEvent)) [(Event.mousebuttonup BUTTON_MIDDLE rel, (0, 0, 0))] =
      Game.handle_mousebuttonup (Game.handle_events { s with mode := Mode.DRAG }
        (ps.map motionEvent)) BUTTON_MIDDLE := rfl
  rw [hfin]
  simp only at hmot
  exact ⟨hup.1.trans hmot.1, hup.2 hmot.2⟩

/-- Witness for C1, the concrete scenario of the specification: offset (0,0),
pointer last observed at (100,100), press there, move to (120,95) then
(130,110), release; the final offset is (30,10). -/
theorem drag_sequence_telescopes_witness :
    (Game.handle_events
        { color := (0, 0, 0), running := true, mode := Mode.NONE,
          camera_position := (0, 0), mouse_position := (100, 100) }
        (dragSeq (100, 100) (130, 110) [(120, 95), (130, 110)])).camera_position
      = (30, 10) := by
  have h := drag_sequence_telescopes
    { color := (0, 0, 0), running := true, mode := Mode.NONE,
      camera_position := (0, 0), mouse_position := (100, 100) }
    (100, 100) (130, 110) [(120, 95), (130, 110)] rfl
  rw [h.1]
  decide

theorem handle_mousebuttondown_running (s : GameState) (b : Nat) (c : Color) :
    (Game.handle_mousebuttondown s b c).running = s.running := by
  unfold Game.handle_mousebuttondown
  split <;> rfl

theorem handle_mousebuttonup_running (s : GameState) (b : Nat) :
    (Game.handle_mousebuttonup s b).running = s.running := by
  unfold Game.handle_mousebuttonup
  split <;> rfl

theorem handle_mousemotion_running (s : GameState) (pos : Vec2)
    (buttons : Nat × Nat × Nat) :
    (Game.handle_mousemotion s pos buttons).running = s.running := by
  cases s with
  | mk c r m cam mp => cases m <;> simp [Game.handle_mousemotion]

theorem handle_event_running_false (s : GameState) (e : Event) (c : Color)
    (h : s.running = false) :
    (Game.handle_event s e c).running = false := by
  cases e with
  | keydown key =>
      simp only [Game.handle_event, Game.handle_keydown]
      split <;> simp [h]
  | quit => rfl
  | mousebuttondown b p => rw [Game.handle_event, handle_mousebuttondown_running, h]
  | mousebuttonup b p => rw [Game.handle_event, handle_mousebuttonup_running, h]
  | mousemotion p bs => rw [Game.handle_event, handle_mousemotion_running, h]
  | other => exact h

theorem handle_event_kill (s : GameState) (e : Event) (c : Color)
    (h : e = Event.quit ∨ e = Event.keydown K_ESCAPE) :
    (Game.handle_event s e c).running = false := by
  rcases h with h | h <;> subst h <;>
    simp [Game.handle_event, Game.handle_keydown]

theorem handle_events_running_false (l : List (Event × Color)) :
    ∀ s : GameState, s.running = false →
      (Game.handle_events s l).running = false := by
  induction l with
  | nil => intro s h; exact h
  | cons ec l ih =>
      intro s h
      rw [handle_events_cons]
      exact ih _ (handle_event_running_false s ec.1 ec.2 h)

theorem handle_events_kill (f : List (Event × Color)) :
    ∀ s : GameState, (∃ ec ∈ f, ec.1 = Event.quit ∨ ec.1 = Event.keydown K_ESCAPE) →
      (Game.handle_events s f).running = false := by
  induction f with
  | nil => intro s h; simp at h
  | cons ec f ih =>
      intro s h
      rw [handle_events_cons]
      rcases h with ⟨ec2, hmem, hkill⟩
      rcases List.mem_cons.mp hmem with heq | hmem2
      · rw [heq] at hkill
        exact handle_events_running_false f _ (handle_event_kill s ec.1 ec.2 hkill)
      · exact ih _ ⟨ec2, hmem2, hkill⟩

theorem loop_stopped (s : GameState) (fs : List (List (Event × Color)))
    (h : s.running = false) :
    Game.loop s fs = s := by
  cases fs with
  | nil => rfl
  | cons f fs => simp [Game.loop, h]

/-- C7: from any state in which the loop is running, a quit-request or escape
key-down anywhere in the current frame's event queue leaves RunningFlag false
at the end of that frame, so the loop's continuation check fails and the loop
ends after exactly this one frame, whatever later frames would have held. -/
theorem escape_or_quit_stops_loop (s : GameState) (f : List (Event × Color))
    (fs : List (List (Event × Color))) (hrun : s.running = true)
    (hkill : ∃ ec ∈ f, ec.1 = Event.quit ∨ ec.1 = Event.keydown K_ESCAPE) :
    Game.loop s (f :: fs) = Game.frame s f ∧ (Game.frame s f).running = false := by
  have hstop : (Game.handle_events s f).running = false := handle_events_kill f s hkill
  constructor
  · rw [Game.loop, if_pos hrun]
    exact loop_stopped _ _ hstop
  · exact hstop

/-- Witness for C7: a running state, a frame containing an escape key-down,
and a non-empty tail of later frames that is never reached. -/
theorem escape_or_quit_stops_loop_witness :
    Game.loop
        { color := (0, 0, 0), running := true, mode := Mode.NONE,
          camera_position := (3, 4), mouse_position := (5, 6) }
        ([(Event.mousemotion (9, 9) (0, 0, 0), (0, 0, 0)), (Event.keydown K_ESCAPE, (0, 0, 0))] ::
          [[(Event.mousebuttondown BUTTON_LEFT (1, 1), (7, 7, 7))]])
      = Game.frame
          { color := (0, 0, 0), running := true, mode := Mode.NONE,
            camera_position := (3, 4), mouse_position := (5, 6) }
          [(Event.mousemotion (9, 9) (0, 0, 0), (0, 0, 0)), (Event.keydown K_ESCAPE, (0, 0, 0))] ∧
    (Game.frame
        { color := (0, 0, 0), running := true, mode := Mode.NONE,
          camera_position := (3, 4), mouse_position := (5, 6) }
        [(Event.mousemotion (9, 9) (0, 0, 0), (0, 0, 0)),
         (Event.keydown K_ESCAPE, (0, 0, 0))]).running = false :=
  escape_or_quit_stops_loop _ _ _ rfl (by decide)

theorem list_sum_const (c : Nat) :
    ∀ xs : List Nat, (∀ x ∈ xs, x = c) → xs.sum = c * xs.length := by
  intro xs
  induction xs with
  | nil => intro _; simp
  | cons a l ih =>
      intro h
      have ha : a = c := h a (List.mem_cons_self a l)
      have hl : l.sum = c * l.length := ih fun x hx => h x (List.mem_cons_of_mem a hx)
      simp [List.sum_cons, ha, hl, Nat.mul_succ, Nat.add_comm]

/-- Fixed-advance font model used as a concrete instance: every glyph is 6
pixels wide. -/
def monoWidth (s : String) : Nat := 6 * s.length

/-- Fixed-height font model used as a concrete instance: every rasterized line
is 13 pixels tall, as with a real font whose render height is constant. -/
def monoHeight (_ : String) : Nat := 13

/-- C3: for a non-empty line sequence rendered with a font whose rasterized
line height is uniform (as for the program's single fixed font), the
background panel is exactly twice the horizontal padding plus the maximum
rasterized line width wide, and twice the vertical padding plus the sum of the
rasterized line heights tall. -/
theorem render_panel_size (fw fh : String → Nat) (position : Nat × Nat)
    (tblines : List String) (hne : tblines ≠ [])
    (hconst : ∀ l ∈ tblines, fh l = fh (tblines.headD "")) :
    ∃ r, TextBox.render fw fh position tblines = some r ∧
      r.background.size =
        (TextBox.PADDING.1 * 2 + (tblines.map fw).foldl Nat.max 0,
         TextBox.PADDING.2 * 2 + (tblines.map fh).sum) := by
  cases tblines with
  | nil => exact absurd rfl hne
  | cons l ls =>
      simp only [TextBox.render, List.map_cons]
      refine ⟨_, rfl, ?_⟩
      simp only [TextBox.getBackground, Prod.ext_iff]
      constructor
      · have hfst : (Prod.fst ∘ fun t => (fw t, fh t)) = fw := rfl
        simp [List.map_map, hfst]
      · have hc : ∀ y ∈ (l :: ls).map fh, y = fh l := by
          intro y hy
          rcases List.mem_map.mp hy with ⟨x, hx, rfl⟩
          exact hconst x hx
        have hsum := list_sum_const (fh l) ((l :: ls).map fh) hc
        simp only [List.map_cons] at hsum
        rw [hsum]
        simp [List.length_map]

/-- Witness for C3, the concrete scenario of the specification: lines
["a", "bb"] with padding (15, 5) under a monospace font give a panel of width
15 * 2 + width("bb") and height 5 * 2 + height("a") + height("bb"). -/
theorem render_panel_size_witness :
    ∃ r, TextBox.render monoWidth monoHeight (10, 80) ["a", "bb"] = some r ∧
      r.background.size =
        (15 * 2 + monoWidth "bb", 5 * 2 + monoHeight "a" + monoHeight "bb") := by
  obtain ⟨r, h1, h2⟩ := render_panel_size monoWidth monoHeight (10, 80) ["a", "bb"]
    (by decide) (fun l _ => rfl)
  exact ⟨r, h1, by rw [h2]; rfl⟩

/-- The heap invariant of the aliasing model: the `ZERO` cell is allocated,
neither `camera_position` nor `mouse_position` aliases it, and it still holds
the zero vector. -/
def AInv (g : AGame) : Prop :=
  g.zeroRef < g.heap.length ∧ g.camRef ≠ g.zeroRef ∧ g.mouseRef ≠ g.zeroRef ∧
    hread g.heap g.zeroRef = (0, 0)

theorem hread_halloc (h : List Vec2) (v : Vec2) (r : Nat) (hr : r < h.length) :
    hread (h ++ [v]) r = hread h r :=
  List.getD_append h [v] (0, 0) r hr

theorem hread_set_ne (h : List Vec2) (i j : Nat) (v : Vec2) (hne : j ≠ i) :
    hread (h.set j v) i = hread h i := by
  simp [hread, List.getD_eq_getElem?_getD, List.getElem?_set_ne hne]

theorem AInv_init (c : Color) : AInv (AGame.init c) := by
  refine ⟨?_, ?_, ?_, ?_⟩ <;> simp [AGame.init, halloc, hread]

theorem AInv_keydown (g : AGame) (k : Nat) (h : AInv g) :
    AInv (AGame.handle_keydown g k) := by
  unfold AGame.handle_keydown
  split
  · exact h
  · exact h

theorem AInv_mousebuttondown (g : AGame) (b : Nat) (c : Color) (h : AInv g) :
    AInv (AGame.handle_mousebuttondown g b c) := by
  unfold AGame.handle_mousebuttondown
  split
  · exact h
  · refine ⟨?_, ?_, h.2.2.1, ?_⟩
    · have hlen := h.1
      simp only [halloc, List.length_append, List.length_singleton]
      omega
    · exact ne_of_gt h.1
    · exact (hread_halloc g.heap _ g.zeroRef h.1).trans h.2.2.2
  · exact h
  · exact h

theorem AInv_mousebuttonup (g : AGame) (b : Nat) (h : AInv g) :
    AInv (AGame.handle_mousebuttonup g b) := by
  unfold AGame.handle_mousebuttonup
  split
  · exact h
  · exact h

theorem AInv_mousemotion (g : AGame) (pos : Vec2) (buttons : Nat × Nat × Nat)
    (h : AInv g) : AInv (AGame.handle_mousemotion g pos buttons) := by
  obtain ⟨hlen, hcam, hmouse, hzero⟩ := h
  cases g with
  | mk heap z cam mouse color running mode =>
      simp only at hlen hcam hmouse hzero
      cases mode with
      | DRAG =>
          refine ⟨?_, hcam, ?_, ?_⟩
          · simp only [AGame.handle_mousemotion, halloc, List.length_set,
              List.length_append, List.length_singleton]
            omega
          · exact ne_of_gt hlen
          · simp only [AGame.handle_mousemotion, halloc]
            rw [hread_set_ne _ _ _ _ hcam, hread_halloc _ _ _ hlen]
            exact hzero
      | NONE =>
          refine ⟨?_, hcam, ?_, ?_⟩
          · simp only [AGame.handle_mousemotion, halloc, List.length_append,
              List.length_singleton]
            omega
          · exact ne_of_gt hlen
          · simp only [AGame.handle_mousemotion, halloc]
            rw [hread_halloc _ _ _ hlen]
            exact hzero

theorem AInv_step (g : AGame) (e : Event) (c : Color) (h : AInv g) :
    AInv (AGame.handle_event g e c) := by
  cases e with
  | keydown k => exact AInv_keydown g k h
  | quit => exact h
  | mousebuttondown b p => exact AInv_mousebuttondown g b c h
  | mousebuttonup b p => exact AInv_mousebuttonup g b h
  | mousemotion p bs => exact AInv_mousemotion g p bs h
  | other => exact h

theorem AInv_events (l : List (Event × Color)) :
    ∀ g : AGame, AInv g → AInv (AGame.handle_events g l) := by
  induction l with
  | nil => intro g h; exact h
  | cons ec l ih =>
      intro g h
      exact ih _ (AInv_step g ec.1 ec.2 h)

/-- C10: after any sequence of events from initialization, the class-level
shared zero vector `Game.ZERO` still holds (0, 0) — `camera_position` and
`mouse_position` never alias its cell (initialization and recenter bind fresh
copies), so the in-place vector addition of a drag never mutates it. -/
theorem zero_vector_never_mutated (c : Color) (events : List (Event × Color)) :
    hread (AGame.handle_events (AGame.init c) events).heap
        (AGame.handle_events (AGame.init c) events).zeroRef = (0, 0) ∧
    (AGame.handle_events (AGame.init c) events).camRef
        ≠ (AGame.handle_events (AGame.init c) events).zeroRef ∧
    (AGame.handle_events (AGame.init c) events).mouseRef
        ≠ (AGame.handle_events (AGame.init c) events).zeroRef := by
  have h := AInv_events events (AGame.init c) (AInv_init c)
  exact ⟨h.2.2.2, h.2.1, h.2.2.1⟩

/-- C9: in the alternate boolean-handler design (events.py), the per-event
handler returns `false` exactly on a quit-request or an escape key-down, and
`true` for every other event. -/
theorem handlers_false_iff_quit_or_escape (e : Event) :
    Handlers.handle_event e = false ↔
      e = Event.quit ∨ e = Event.keydown K_ESCAPE := by
  cases e <;> simp [Handlers.handle_event, Handlers.handle_keydown, K_ESCAPE]
